import Mathlib

/-!
Verification of the MindForge evaluation harness (mindforge_harness).

This file gives a shallow embedding of the parts of the harness that the
claims C1 to C10 are about:

* `utils.py`: `consistent_hash`, `extract_crash_details_from_report`
* `docker/image_builder.py`: `get_image_name`, `format_dockerfile` (its
  effect on the spec), `build_docker_image_from_specs` (the per-identity
  failure bookkeeping, modelled as an explicit state transformer; the
  per-image asyncio lock serialises the code below, so the sequential
  model corresponds to the code as executed inside the lock)
* `run_instance.py`: `EvaluationPipelineInterface.gather_results`,
  `compose_a_report_for_missing_test`
* `produce.py`: the per-instance body of `gather_results` (the
  differential classifier)
* `evaluate.py`: the batch-mode submission loop of `evaluate`

Python dicts are modelled as association lists with Python insertion
semantics (`dinsert` replaces in place, else appends), Python sets of
strings as `Finset String`, raised exceptions as `Except String`.
-/

/-- Python dict assignment `d[k] = v`: replace the value in place if the key
is present, otherwise append the pair at the end. -/
def dinsert {α : Type} (d : List (String × α)) (k : String) (v : α) : List (String × α) :=
  match d with
  | [] => [(k, v)]
  | kv :: rest => if kv.1 = k then (k, v) :: rest else kv :: dinsert rest k v

/-- Python dict lookup `d.get(k)`. -/
def dlookup {α : Type} (d : List (String × α)) (k : String) : Option α :=
  match d with
  | [] => none
  | kv :: rest => if kv.1 = k then some kv.2 else dlookup rest k

theorem dlookup_dinsert_self {α : Type} (d : List (String × α)) (k : String) (v : α) :
    dlookup (dinsert d k v) k = some v := by
  induction d with
  | nil => simp [dinsert, dlookup]
  | cons kv rest ih =>
    by_cases h : kv.1 = k
    · simp [dinsert, dlookup, h]
    · simp [dinsert, dlookup, h, ih]

theorem dlookup_dinsert_other {α : Type} (d : List (String × α)) (k k' : String) (v : α)
    (h : k' ≠ k) : dlookup (dinsert d k v) k' = dlookup d k' :=
  by
  induction d with
  | nil => simp [dinsert, dlookup, Ne.symm h]
  | cons kv rest ih =>
    by_cases hk : kv.1 = k
    · simp [dinsert, dlookup, hk, Ne.symm h]
    · simp [dinsert, dlookup, hk, ih]

/-- Fuelled worker for `chunksOf`; the fuel is at least the list length, so
the zero-fuel branch is never reached on the actual call. -/
def chunksGo {α : Type} (k : Nat) : Nat → List α → List (List α)
  | _, [] => []
  | 0, _ :: _ => []
  | fuel + 1, x :: xs => (x :: xs).take k :: chunksGo k fuel ((x :: xs).drop k)

/-- The slices `l[i:i+k]` visited by `range(0, len(l), k)`; meaningful for
`0 < k` (Python raises on a zero step). -/
def chunksOf {α : Type} (k : Nat) (l : List α) : List (List α) :=
  match k with
  | 0 => []
  | _ + 1 => chunksGo k l.length l

theorem chunksGo_flatten {α : Type} (k : Nat) (hk : 0 < k) :
    ∀ (fuel : Nat) (l : List α), l.length ≤ fuel → (chunksGo k fuel l).flatten = l := by
  intro fuel
  induction fuel with
  | zero =>
    intro l hl
    match l with
    | [] => simp [chunksGo]
    | x :: xs => simp at hl
  | succ n ih =>
    intro l hl
    match l with
    | [] => simp [chunksGo]
    | x :: xs =>
      have hdrop : ((x :: xs).drop k).length ≤ n := by
        simp only [List.length_drop, List.length_cons]
        simp at hl
        omega
      simp [chunksGo, ih _ hdrop, List.take_append_drop]

theorem chunksOf_flatten {α : Type} (k : Nat) (l : List α) (hk : 0 < k) :
    (chunksOf k l).flatten = l := by
  match k with
  | 0 => omega
  | n + 1 => exact chunksGo_flatten (n + 1) hk l.length l le_rfl

theorem chunksGo_length_le {α : Type} (k : Nat) :
    ∀ (fuel : Nat) (l : List α), ∀ c ∈ chunksGo k fuel l, c.length ≤ k := by
  intro fuel
  induction fuel with
  | zero =>
    intro l c hc
    match l with
    | [] => simp [chunksGo] at hc
    | x :: xs => simp [chunksGo] at hc
  | succ n ih =>
    intro l c hc
    match l with
    | [] => simp [chunksGo] at hc
    | x :: xs =>
      simp only [chunksGo] at hc
      rcases List.mem_cons.mp hc with rfl | hc
      · simpa using List.length_take_le k (x :: xs)
      · exact ih _ c hc

theorem chunksOf_length_le {α : Type} (k : Nat) (l : List α) :
    ∀ c ∈ chunksOf k l, c.length ≤ k := by
  match k with
  | 0 => simp [chunksOf]
  | n + 1 => exact chunksGo_length_le (n + 1) l.length l

/-! ## Python values and `utils.consistent_hash` -/

/-- A Python value as it occurs in a `spec_dict`: strings, integers, lists,
dicts (insertion-ordered association lists) and sets (carried as the list of
their members). -/
inductive JVal : Type
  | str : String → JVal
  | int : Int → JVal
  | list : List JVal → JVal
  | dict : List (String × JVal) → JVal
  | set : List JVal → JVal

/-- The Python runtime type of a value, as `type(v).__name__`. -/
def pyType : JVal → String
  | .str _ => "str"
  | .int _ => "int"
  | .list _ => "list"
  | .dict _ => "dict"
  | .set _ => "set"

/-- The hashable, consistently ordered form produced by the inner
`make_hashable` of `utils.consistent_hash`: only strings, integers and
tuples (serialised by orjson as arrays) remain. -/
inductive Canon : Type
  | cstr : String → Canon
  | cint : Int → Canon
  | carr : List Canon → Canon

/-- Minimal JSON string escaping as performed by `orjson.dumps`. -/
def jsonEscapeChar (c : Char) : String :=
  if c = '"' then "\\\""
  else if c = '\\' then "\\\\"
  else if c = '\n' then "\\n"
  else if c = '\t' then "\\t"
  else if c = '\r' then "\\r"
  else String.singleton c

def jsonEscape (s : String) : String :=
  String.join (s.toList.map jsonEscapeChar)

mutual

/-- `orjson.dumps` on the output of `make_hashable` (tuples become JSON
arrays; `OPT_SORT_KEYS` is moot because no dicts survive `make_hashable`). -/
def serializeCanon : Canon → String
  | .cstr s => "\"" ++ jsonEscape s ++ "\""
  | .cint n => toString n
  | .carr l => "[" ++ String.intercalate "," (serializeCanonList l) ++ "]"
termination_by structural c => c

/-- Elementwise serialisation of a tuple's members. -/
def serializeCanonList : List Canon → List String
  | [] => []
  | x :: xs => serializeCanon x :: serializeCanonList xs
termination_by structural l => l

end

/-- Lexicographic comparison of character lists by code point. -/
def charListLe : List Char → List Char → Bool
  | [], _ => true
  | _ :: _, [] => false
  | a :: as, b :: bs =>
    if a.toNat < b.toNat then true
    else if b.toNat < a.toNat then false
    else charListLe as bs

/-- Python string comparison `a <= b` (lexicographic by code point). -/
def pyStrLe (a b : String) : Bool := charListLe a.toList b.toList

/-- Insertion into a list sorted by `le` (used to model Python `sorted`). -/
def insertLe {α : Type} (le : α → α → Bool) (x : α) : List α → List α
  | [] => [x]
  | y :: ys => if le x y then x :: y :: ys else y :: insertLe le x ys

/-- Python `sorted` with comparison `le`. -/
def sortLe {α : Type} (le : α → α → Bool) : List α → List α
  | [] => []
  | x :: xs => insertLe le x (sortLe le xs)

mutual

/-- `make_hashable` from `utils.consistent_hash`: dicts become key-sorted
tuples of `(key, value)` pairs, lists become tuples, sets become sorted
tuples.  Sorting of set members uses the members' serialised form as key;
this coincides with the lexicographic order Python uses on the (homogeneous,
string-valued) sets the harness feeds in.  For dicts the pairs are sorted by
their string key, as `sorted(obj.items())` does on the unique keys of a
Python dict.  (The sort is applied after the recursive call rather than
before it, which produces the same list because keys are untouched.) -/
def make_hashable : JVal → Canon
  | .str s => .cstr s
  | .int n => .cint n
  | .list l => .carr (make_hashable_list l)
  | .set l => .carr (sortLe (fun a b => pyStrLe (serializeCanon a) (serializeCanon b))
      (make_hashable_list l))
  | .dict kvs => .carr ((sortLe (fun a b => pyStrLe a.1 b.1) (make_hashable_pairs kvs)).map
      (fun kv => Canon.carr [Canon.cstr kv.1, kv.2]))
termination_by structural v => v

/-- Elementwise canonicalisation of a list value's members. -/
def make_hashable_list : List JVal → List Canon
  | [] => []
  | x :: xs => make_hashable x :: make_hashable_list xs
termination_by structural l => l

/-- Canonicalisation of dict items, keys untouched. -/
def make_hashable_pairs : List (String × JVal) → List (String × Canon)
  | [] => []
  | (k, v) :: rest => (k, make_hashable v) :: make_hashable_pairs rest
termination_by structural l => l

end

/-- A Python `spec_dict`: an insertion-ordered string-keyed dict. -/
abbrev SpecDict : Type := List (String × JVal)

/-- The default `unhash_fields` argument of `utils.consistent_hash`. -/
def unhash_fields : List String := ["install", "test_cmd", "eval_commands"]

/-- The dict comprehension in `consistent_hash` that drops the
`unhash_fields` keys. -/
def filterUnhash (data : SpecDict) (unhash : List String) : SpecDict :=
  data.filter (fun kv => !(unhash.contains kv.1))

/-- Fixed template fingerprint `DOCKER_IMAGE_COMBINED` from
`docker/consts.py`: the concatenated text of the Dockerfile template, the
certificate snippet and the patch script.  Every property proved below is
invariant under the exact bytes of this constant (it is a fixed suffix mixed
into every hash input), so a representative stand-in is used for the
multi-kilobyte template text. -/
def DOCKER_IMAGE_COMBINED : String :=
  "\nFROM ubuntu:22.04\n<dockerfile-template><green-zone-certificates><patch-codes-py>"

/-- The exact byte string `serialized + DOCKER_IMAGE_COMBINED` that
`consistent_hash` feeds to SHA-256. -/
def hashInput (data : SpecDict) (unhash : List String := unhash_fields) : String :=
  serializeCanon (make_hashable (.dict (filterUnhash data unhash))) ++ DOCKER_IMAGE_COMBINED

/-! SHA-256 (`hashlib.sha256(...).hexdigest()`), computed over the UTF-8
bytes of the input (the harness only ever hashes ASCII data, for which the
code-point bytes below coincide with UTF-8). -/

def mod32 (x : Nat) : Nat := x % 4294967296

def rotr (x n : Nat) : Nat := mod32 ((x >>> n) ||| (x <<< (32 - n)))

/-- First 64 primes; SHA-256 draws its round constants from their roots. -/
def primes64 : List Nat :=
  [2, 3, 5, 7, 11, 13, 17, 19, 23, 29, 31, 37, 41, 43, 47, 53,
   59, 61, 67, 71, 73, 79, 83, 89, 97, 101, 103, 107, 109, 113, 127, 131,
   137, 139, 149, 151, 157, 163, 167, 173, 179, 181, 191, 193, 197, 199, 211, 223,
   227, 229, 233, 239, 241, 251, 257, 263, 269, 271, 277, 281, 283, 293, 307, 311]

/-- Integer cube root (largest `r` with `r ^ 3 ≤ n`), for `n < 2 ^ 120`. -/
def icbrt (n : Nat) : Nat :=
  (List.range 40).reverse.foldl (fun r i => let c := r + 2 ^ i; if c ^ 3 ≤ n then c else r) 0

def sha256K : List Nat := primes64.map (fun p => mod32 (icbrt (p * 2 ^ 96)))

def sha256H0 : List Nat := (primes64.take 8).map (fun p => mod32 (Nat.sqrt (p * 2 ^ 64)))

/-- Big-endian word from a list of bytes. -/
def bytesBE (bs : List Nat) : Nat := bs.foldl (fun a b => a * 256 + b) 0

/-- `len` big-endian bytes of `n`. -/
def natBytesBE (len n : Nat) : List Nat :=
  (List.range len).reverse.map (fun i => (n >>> (8 * i)) % 256)

/-- SHA-256 padding: `0x80`, zeros to 56 mod 64, then the 8-byte bit length. -/
def sha256pad (msg : List Nat) : List Nat :=
  msg ++ [128] ++ List.replicate ((55 + 64 - msg.length % 64) % 64) 0
      ++ natBytesBE 8 (8 * msg.length)

/-- Message-schedule extension of the 16 block words to 64 words. -/
def sha256schedule (w16 : List Nat) : List Nat :=
  (List.range 48).foldl
    (fun w _ =>
      let n := w.length
      let wg := fun (j : Nat) => w.getD j 0
      let s0 := (rotr (wg (n - 15)) 7) ^^^ (rotr (wg (n - 15)) 18) ^^^ ((wg (n - 15)) >>> 3)
      let s1 := (rotr (wg (n - 2)) 17) ^^^ (rotr (wg (n - 2)) 19) ^^^ ((wg (n - 2)) >>> 10)
      w ++ [mod32 (wg (n - 16) + s0 + wg (n - 7) + s1)])
    w16

/-- One SHA-256 compression round. -/
def sha256round (st : List Nat) (kw : Nat × Nat) : List Nat :=
  let a := st.getD 0 0
  let b := st.getD 1 0
  let c := st.getD 2 0
  let d := st.getD 3 0
  let e := st.getD 4 0
  let f := st.getD 5 0
  let g := st.getD 6 0
  let h := st.getD 7 0
  let s1 := (rotr e 6) ^^^ (rotr e 11) ^^^ (rotr e 25)
  let ch := (e &&& f) ^^^ ((e ^^^ 4294967295) &&& g)
  let t1 := mod32 (h + s1 + ch + kw.1 + kw.2)
  let s0 := (rotr a 2) ^^^ (rotr a 13) ^^^ (rotr a 22)
  let maj := (a &&& b) ^^^ (a &&& c) ^^^ (b &&& c)
  let t2 := mod32 (s0 + maj)
  [mod32 (t1 + t2), a, b, c, mod32 (d + t1), e, f, g]

/-- Compress one 64-byte block into the running state. -/
def sha256compress (st : List Nat) (block : List Nat) : List Nat :=
  let w := sha256schedule ((chunksOf 4 block).map bytesBE)
  let out := (sha256K.zip w).foldl sha256round st
  (st.zip out).map (fun p => mod32 (p.1 + p.2))

/-- Eight lowercase hex digits of a 32-bit word. -/
def hexWord32 (n : Nat) : String :=
  let ds := Nat.toDigits 16 n
  String.mk (List.replicate (8 - ds.length) '0' ++ ds)

/-- `hashlib.sha256(bytes).hexdigest()` over a byte list. -/
def sha256hex (msg : List Nat) : String :=
  String.join (((chunksOf 64 (sha256pad msg)).foldl sha256compress sha256H0).map hexWord32)

/-- Byte view of an ASCII string. -/
def strBytes (s : String) : List Nat := s.toList.map Char.toNat

/-- `utils.consistent_hash`: drop the `unhash_fields`, canonicalise, orjson
serialise, append the template fingerprint and take the SHA-256 hexdigest. -/
def consistent_hash (data : SpecDict) (unhash : List String := unhash_fields) : String :=
  sha256hex (strBytes (hashInput data unhash))

/-- `image_builder.get_image_name`. -/
def get_image_name (repo_name : String) (spec_dict : SpecDict) : String :=
  let r := repo_name.toLower
  "eval-" ++ (r.replace "/" "-") ++ "-" ++ (consistent_hash spec_dict).take 8

/-! ## Test reports -/

/-- One phase sub-record (`setup`, `call`, `teardown`) of a pytest-json
test record.  The non-semantic float field `duration` is omitted. -/
structure Phase where
  outcome : Option String := none
  longrepr : Option String := none
  crash : Option String := none
deriving DecidableEq

/-- One record of the `tests` list of a pytest-json report. -/
structure TestEntry where
  nodeid : String
  outcome : String
  lineno : Nat := 0
  keywords : List String := []
  crash : Option String := none
  setup : Option Phase := none
  call : Option Phase := none
  teardown : Option Phase := none
deriving DecidableEq

/-- A per-instance round result as `produce.gather_results` consumes it:
either an error entry `{error: ...}` recorded by the scheduler, or a parsed
report with its `tests` list and optional `root` marker. -/
structure RoundResult where
  error : Option String := none
  tests : List TestEntry := []
  root : Option String := none
deriving DecidableEq

/-- Whether `'crash' in test[phase]` holds for an optional phase record. -/
def phaseHasCrash : Option Phase → Bool
  | some p => p.crash.isSome
  | none => false

/-- The `teardown` tail of the `failed` branch of
`utils.extract_crash_details_from_report`: the `teardown` phase crash text
when present, otherwise the empty detail the final `else` assigns. -/
def crash_detail_teardown (t : TestEntry) : String :=
  match t.teardown with
  | some p =>
    match p.crash with
    | some c => c
    | none => ""
  | none => ""

/-- The loop body of `utils.extract_crash_details_from_report` for one test:
the detail recorded for the node (`none` when the outcome is neither
`error` nor `failed`).  For an `error` outcome the `longrepr` texts of the
present phases are concatenated.  For a `failed` outcome the code first
takes a top-level `crash` value; failing that, when the `setup` phase has a
`crash` entry it evaluates `test[\x22crash\x22]` — which is absent at that
point, so the extraction raises `KeyError`; then the `call` and `teardown`
phases are consulted, and otherwise the detail is the empty string. -/
def crash_detail_of (t : TestEntry) : Except String (Option String) :=
  if t.outcome = "error" then
    .ok (some ((match t.setup with | some p => p.longrepr.getD "" ++ "\n" | none => "")
      ++ (match t.call with | some p => p.longrepr.getD "" ++ "\n" | none => "")
      ++ (match t.teardown with | some p => p.longrepr.getD "" | none => "")))
  else if t.outcome = "failed" then
    match t.crash with
    | some c => .ok (some c)
    | none =>
      if phaseHasCrash t.setup then .error "KeyError: crash"
      else
        match t.call with
        | some p =>
          (match p.crash with
           | some c => .ok (some c)
           | none => .ok (some (crash_detail_teardown t)))
        | none => .ok (some (crash_detail_teardown t))
  else .ok none

/-- The loop of `utils.extract_crash_details_from_report` over the report's
tests, accumulating the `output` dict. -/
def extract_crash_loop : List TestEntry → List (String × String) →
    Except String (List (String × String))
  | [], out => .ok out
  | t :: rest, out =>
    match crash_detail_of t with
    | .error e => .error e
    | .ok none => extract_crash_loop rest out
    | .ok (some v) => extract_crash_loop rest (dinsert out t.nodeid v)

/-- `utils.extract_crash_details_from_report`: map each crashed test node to
its failure text.  A raised `KeyError` is modelled as an `Except.error`. -/
def extract_crash_details_from_report (report : RoundResult) :
    Except String (List (String × String)) :=
  extract_crash_loop report.tests []

/-! ## `produce.gather_results` (the differential classifier) -/

namespace Produce

/-- `produce.PASS_OUTCOMES`. -/
def PASS_OUTCOMES : List String := ["passed", "skipped"]

/-- `produce.FAIL_OUTCOMES`. -/
def FAIL_OUTCOMES : List String := ["failed", "error"]

/-- The set comprehension over a report's tests keeping node ids whose
outcome is in `PASS_OUTCOMES`. -/
def passIds (tests : List TestEntry) : Finset String :=
  ((tests.filter (fun t => PASS_OUTCOMES.contains t.outcome)).map (fun t => t.nodeid)).toFinset

/-- The set comprehension over a report's tests keeping node ids whose
outcome is in `FAIL_OUTCOMES`. -/
def failIds (tests : List TestEntry) : Finset String :=
  ((tests.filter (fun t => FAIL_OUTCOMES.contains t.outcome)).map (fun t => t.nodeid)).toFinset

/-- The `result_entry` dict built by `produce.gather_results` for one
instance. -/
structure ResultEntry where
  p2p : Finset String := ∅
  f2p : Finset String := ∅
  f2f : Finset String := ∅
  p2f : Finset String := ∅
  f2f_test_details : List (String × String) := []
  p2f_test_details : List (String × String) := []
deriving DecidableEq

/-- What `produce.gather_results` records for one instance: an error entry
propagated from the golden round, or a classification `result_entry`. -/
inductive GatherEntry : Type
  | err : String → GatherEntry
  | result : ResultEntry → GatherEntry
deriving DecidableEq

/-- POSIX `os.path.join` on two components: an absolute second component
replaces the first. -/
def pathJoin (a b : String) : String :=
  if ['/'].isPrefixOf b.toList then b
  else if a = "" then b
  else if ['/'].isPrefixOf a.toList.reverse then a ++ b
  else a ++ "/" ++ b

/-- The tail of `produce.gather_results`: when the golden report carries a
truthy `root` other than `/workspace`, every emitted node id is joined onto
that root. -/
def rewriteRoot (root : Option String) (e : ResultEntry) : ResultEntry :=
  match root with
  | none => e
  | some r =>
    if r ≠ "" ∧ r ≠ "/workspace" then
      { p2p := e.p2p.image (pathJoin r)
        f2p := e.f2p.image (pathJoin r)
        f2f := e.f2f.image (pathJoin r)
        p2f := e.p2f.image (pathJoin r)
        f2f_test_details := e.f2f_test_details.map (fun kv => (pathJoin r kv.1, kv.2))
        p2f_test_details := e.p2f_test_details.map (fun kv => (pathJoin r kv.1, kv.2)) }
    else e

/-- The per-instance body of `produce.gather_results`, comparing one
pre-golden round result with the matching golden round result.  The
`try/except` around the crash-detail extraction only prints; on the first
instance the subsequent read of `crash_details` then raises `NameError`, so
an extraction failure is modelled as a failure of the whole computation. -/
def gatherEntry (pre_golden_round_result golden_round_result : RoundResult) :
    Except String GatherEntry :=
  match golden_round_result.error with
  | some e => .ok (.err e)
  | none =>
    let golden_tests_passed := passIds golden_round_result.tests
    (extract_crash_details_from_report golden_round_result).map (fun crash_details =>
      let golden_pass := golden_tests_passed
      let golden_fail := (crash_details.map Prod.fst).toFinset
      let entry : ResultEntry :=
        if pre_golden_round_result.error.isSome then
          { f2p := golden_tests_passed
            f2f := golden_fail
            f2f_test_details := crash_details }
        else
          let pre_golden_pass := passIds pre_golden_round_result.tests
          let pre_golden_fail := failIds pre_golden_round_result.tests
          { f2p := pre_golden_fail ∩ golden_pass
            p2p := pre_golden_pass ∩ golden_pass
            f2f := pre_golden_fail ∩ golden_fail
            p2f := pre_golden_pass ∩ golden_fail
            f2f_test_details :=
              crash_details.filter (fun kv => decide (kv.1 ∈ pre_golden_fail ∩ golden_fail))
            p2f_test_details :=
              crash_details.filter (fun kv => decide (kv.1 ∈ pre_golden_pass ∩ golden_fail)) }
      .result (rewriteRoot golden_round_result.root entry))

end Produce

/-! ## `run_instance.EvaluationPipelineInterface.gather_results` -/

/-- Whether `needle` occurs as a contiguous sublist of `hay`. -/
def listHasInfix (needle hay : List Char) : Bool :=
  match hay with
  | [] => needle.isEmpty
  | _ :: tail => needle.isPrefixOf hay || listHasInfix needle tail

/-- Python `needle in hay` on strings (substring containment). -/
def strHas (hay needle : String) : Bool :=
  listHasInfix needle.toList hay.toList

namespace RunInstance

/-- One record of the optional `collectors` list of a pytest-json report. -/
structure Collector where
  nodeid : String
  outcome : String
  longrepr : String := ""
deriving DecidableEq

/-- The parsed `pytest_report.json` as `gather_results` consumes it. -/
structure PyReport where
  tests : List TestEntry := []
  collectors : Option (List Collector) := none
deriving DecidableEq

/-- The `short_results` dict comprehension of `gather_results`: node id to
pass/fail boolean, `skipped` counting as a pass when `skipped_ok`. -/
def shortResults (tests : List TestEntry) (skipped_ok : Bool) : List (String × Bool) :=
  tests.foldl
    (fun m x => dinsert m x.nodeid
      (if skipped_ok then ["passed", "skipped"].contains x.outcome else x.outcome == "passed"))
    []

/-- The collector-validation loop of `gather_results`, accumulating the
`problematic_collectors` dict: a failed collector whose `longrepr` mentions
`ModuleNotFoundError` or `ImportError` raises unconditionally; the remaining
failed collectors are recorded. -/
def validate_loop : List Collector → List (String × String) →
    Except String (List (String × String))
  | [], probs => .ok probs
  | c :: rest, probs =>
    if c.outcome = "failed" then
      if strHas c.longrepr "ModuleNotFoundError" || strHas c.longrepr "ImportError" then
        .error ("Failed to collect tests due to an ImportError: " ++ c.nodeid ++ "\n"
          ++ c.longrepr)
      else validate_loop rest (dinsert probs c.nodeid c.longrepr)
    else validate_loop rest probs

/-- The collector-validation block of `gather_results`, guarded by
`if tests and (then) collectors in results`; after the loop, remaining
problematic collectors raise unless `ignore_collector_errors`. -/
def collector_check (results : PyReport) (tests : List String)
    (ignore_collector_errors : Bool) : Except String (List (String × String)) :=
  if tests = [] then .ok []
  else
    match results.collectors with
    | none => .ok []
    | some cs =>
      (validate_loop cs []).bind (fun probs =>
        if probs ≠ [] ∧ ¬ignore_collector_errors then
          .error "Failed to collect tests: problematic collectors recorded"
        else .ok probs)

/-- `run_instance.compose_a_report_for_missing_test` (the float `duration`
fields of the synthesized phase records are omitted). -/
def compose_a_report_for_missing_test (test : String) (longrepr : Option String) : TestEntry :=
  match longrepr with
  | none =>
    { nodeid := test
      lineno := 0
      outcome := "error"
      keywords := []
      setup := some { outcome := some "failed"
                      longrepr := some (test ++ " not found in the working directory.") }
      teardown := some { outcome := some "skipped"
                         longrepr := some (test ++ " not found in the working directory.") } }
  | some l =>
    { nodeid := test
      lineno := 0
      outcome := "error"
      keywords := []
      setup := some { outcome := some "failed", longrepr := some l } }

/-- The `longrepr` search of the missing-test loop: the failure text of the
first problematic collector whose node id is a substring of the missing test
id. -/
def find_matching_longrepr (probs : List (String × String)) (test : String) : Option String :=
  match probs with
  | [] => none
  | (k, v) :: rest => if strHas test k then some v else find_matching_longrepr rest test

/-- What `gather_results` returns: the short pass/fail map, or the full
report (with synthesized entries appended). -/
inductive GatherOutput : Type
  | short : List (String × Bool) → GatherOutput
  | full : PyReport → GatherOutput
deriving DecidableEq

/-- `EvaluationPipelineInterface.gather_results`, from the point where the
report file has been parsed: build the short map, validate collectors, and
reconcile missing tests — but only when fewer tests were reported than
requested. -/
def gather_results (results : PyReport) (tests : List String) (skipped_ok : Bool)
    (short : Bool) (ignore_collector_errors : Bool) : Except String GatherOutput :=
  let short_results := shortResults results.tests skipped_ok
  (collector_check results tests ignore_collector_errors).bind (fun probs =>
    if tests ≠ [] ∧ results.tests.length < tests.length then
      let tests_missing := tests.filter (fun t => (dlookup short_results t).isNone)
      let short2 := tests_missing.foldl (fun m t => dinsert m t false) short_results
      if short then .ok (.short short2)
      else .ok (.full { results with
        tests := results.tests ++ tests_missing.map
          (fun t => compose_a_report_for_missing_test t (find_matching_longrepr probs t)) })
    else if short then .ok (.short short_results) else .ok (.full results))

end RunInstance

/-! ## `docker/image_builder.py` -/

namespace ImageBuilder

/-- The in-place effect of `format_dockerfile` on the callers `pre_install`
list (`pre_install.insert(0, "apt-get update")`): a non-empty list that does
not already contain the update step gains it at position 0.  The empty/None
case only rebinds the local name and leaves the caller untouched. -/
def format_dockerfile_pre_install (pre_install : List JVal) : List JVal :=
  if pre_install.isEmpty then pre_install
  else if pre_install.any (fun v => match v with | .str s => s = "apt-get update" | _ => false)
  then pre_install
  else JVal.str "apt-get update" :: pre_install

/-- The effect of one `format_dockerfile` call on the callers `spec_dict`:
the aliased `pre_install` list is mutated as above; every other field is
only read. -/
def format_dockerfile_spec_effect (spec_dict : SpecDict) : SpecDict :=
  match dlookup spec_dict "pre_install" with
  | some (JVal.list l) => dinsert spec_dict "pre_install" (.list (format_dockerfile_pre_install l))
  | _ => spec_dict

/-- The responses of the external world (docker daemon, registry, build log
stream) consumed by one `build_docker_image_from_specs` call. -/
structure BuildWorld where
  localHas : String → Bool
  pullOk : String → Bool
  pull_from_registry : Bool
  buildErrorLog : String → Option String

/-- The externally visible steps a build call may attempt after the
fail-fast check. -/
inductive BuildAction : Type
  | check_local
  | registry_pull
  | docker_build
deriving DecidableEq

/-- Result of one `build_docker_image_from_specs` call: the updated
process-wide `failed_images` set, the returned image name or raised error,
the attempted steps, and the callers `spec_dict` after the call (the build
path mutates it through `format_dockerfile`). -/
structure BuildOutcome where
  failed : Finset String
  result : Except String String
  actions : List BuildAction
  spec_after : SpecDict

/-- `build_docker_image_from_specs` as a state transformer over the sticky
`failed_images` set, sequenced as the per-image asyncio lock executes it:
fail fast on a previously failed identity, otherwise local cache check, then
optional registry pull, then a fresh build whose logged error entry marks
the identity failed. -/
def build_docker_image_from_specs (failed_images : Finset String) (w : BuildWorld)
    (repo_name : String) (spec_dict : SpecDict) (force_rebuild : Bool) : BuildOutcome :=
  let image_name := get_image_name repo_name spec_dict
  if image_name ∈ failed_images then
    { failed := failed_images
      result := .error ("Failed to build image " ++ image_name ++ " before. Skipping the build.")
      actions := []
      spec_after := spec_dict }
  else if ¬force_rebuild ∧ w.localHas image_name then
    { failed := failed_images
      result := .ok image_name
      actions := [.check_local]
      spec_after := spec_dict }
  else if ¬force_rebuild ∧ w.pull_from_registry ∧ w.pullOk image_name then
    { failed := failed_images
      result := .ok image_name
      actions := [.check_local, .registry_pull]
      spec_after := spec_dict }
  else
    let pre_actions :=
      if force_rebuild then []
      else if w.pull_from_registry then [BuildAction.check_local, BuildAction.registry_pull]
      else [BuildAction.check_local]
    let spec2 := format_dockerfile_spec_effect spec_dict
    match w.buildErrorLog image_name with
    | some e =>
      { failed := insert image_name failed_images
        result := .error ("Build failed: " ++ e)
        actions := pre_actions ++ [.docker_build]
        spec_after := spec2 }
    | none =>
      { failed := failed_images
        result := .ok image_name
        actions := pre_actions ++ [.docker_build]
        spec_after := spec2 }

/-- One queued build request. -/
structure BuildRequest where
  repo_name : String
  spec_dict : SpecDict
  force_rebuild : Bool := false

/-- A sequence of build calls against the same process state (the per-image
lock serialises them); returns the final `failed_images` set and the
per-request results with their attempted steps. -/
def runBuildRequests (failed_images : Finset String) (w : BuildWorld) :
    List BuildRequest → Finset String × List (Except String String × List BuildAction)
  | [] => (failed_images, [])
  | r :: rest =>
    let o := build_docker_image_from_specs failed_images w r.repo_name r.spec_dict r.force_rebuild
    let t := runBuildRequests o.failed w rest
    (t.1, (o.result, o.actions) :: t.2)

end ImageBuilder

/-! ## `evaluate.evaluate` (batch mode) -/

namespace Evaluate

/-- What the scheduler records for one instance id: a result dict, or the
`{error: ..., traceback: ...}` entry written when the worker caught an
exception. -/
inductive InstResult : Type
  | ok : List (String × Bool) → InstResult
  | err : String → InstResult
deriving DecidableEq

/-- Python `"error" in results[iid]`. -/
def InstResult.isErr : InstResult → Bool
  | .ok _ => false
  | .err _ => true

/-- The batch-mode submission loop of `evaluate.evaluate`: submit one chunk,
let the workers drain it into the shared `results` dict, and stop if every
instance of the chunk recorded an error.  `runOne` is the per-instance
outcome produced by `evaluate_worker` (success result or captured error).
Returns the chunks actually submitted and the final results dict. -/
def batch_submit (runOne : String → InstResult) :
    List (List String) → List (String × InstResult) →
      List (List String) × List (String × InstResult)
  | [], results => ([], results)
  | chunk :: rest, results =>
    let results2 := chunk.foldl (fun m iid => dinsert m iid (runOne iid)) results
    if chunk.all (fun iid =>
        match dlookup results2 iid with
        | some r => r.isErr
        | none => false) then
      ([chunk], results2)
    else
      let t := batch_submit runOne rest results2
      (chunk :: t.1, t.2)

/-- Batch-mode `evaluate`: the instance list is cut into `max_workers`-sized
chunks which `batch_submit` feeds to the workers. -/
def evaluate_batch (runOne : String → InstResult) (max_workers : Nat)
    (instance_ids : List String) : List (List String) × List (String × InstResult) :=
  batch_submit runOne (chunksOf max_workers instance_ids) []

end Evaluate

/-! ## Shared helper lemmas and example data -/

deriving instance DecidableEq for Except

/-- Dropping the excluded keys commutes with a dict assignment to an
excluded key: the assignment is invisible after the filter. -/
theorem filterUnhash_dinsert_unhashed (d : SpecDict) (unhash : List String) (k : String)
    (v : JVal) (h : unhash.contains k = true) :
    filterUnhash (dinsert d k v) unhash = filterUnhash d unhash := by
  have hm : k ∈ unhash := by simpa using h
  induction d with
  | nil => simp [dinsert, filterUnhash, List.filter_cons, hm]
  | cons kv rest ih =>
    by_cases hk : kv.1 = k
    · simp only [dinsert, if_pos hk, filterUnhash, List.filter_cons]
      simp [hk, hm]
    · simp only [dinsert, if_neg hk, filterUnhash, List.filter_cons] at ih ⊢
      rw [ih]

/-- A concrete environment spec used by the witnesses and counterexamples. -/
def exSpec : SpecDict :=
  [("python", .str "python3.10"),
   ("pre_install", .list [.str "a", .str "b"]),
   ("pip_packages", .list [.str "numpy"]),
   ("install", .str "pip install -e ."),
   ("test_cmd", .str "pytest")]

/-! ## Claim C2 -/

/-- Claim C2, counterexample: the claim asserts that changing the value of
any field other than `install`, `test_cmd`, `eval_commands` changes the
derived identity.  Changing the non-excluded `pre_install` field of `exSpec`
from the list `["a", "b"]` to the set `{"b", "a"}` — a different Python
value — leaves both `consistent_hash` and `get_image_name` unchanged,
because `make_hashable` canonicalises a set to the sorted tuple of its
members, which collides with the list's tuple. -/
theorem claim_C2_counterexample :
    dinsert exSpec "pre_install" (JVal.set [.str "b", .str "a"]) ≠ exSpec
    ∧ ¬ ("pre_install" ∈ unhash_fields)
    ∧ consistent_hash (dinsert exSpec "pre_install" (JVal.set [.str "b", .str "a"]))
        = consistent_hash exSpec
    ∧ get_image_name "org/repo" (dinsert exSpec "pre_install" (JVal.set [.str "b", .str "a"]))
        = get_image_name "org/repo" exSpec := by
  refine ⟨?_, by decide, ?_, ?_⟩
  · intro hEq
    have hc := congrArg (fun d => (dlookup d "pre_install").map pyType) hEq
    revert hc
    decide
  · show sha256hex _ = sha256hex _
    have hin : hashInput (dinsert exSpec "pre_install" (JVal.set [.str "b", .str "a"]))
        = hashInput exSpec := by decide
    rw [hin]
  · show "eval-" ++ _ ++ "-" ++ (consistent_hash _).take 8
        = "eval-" ++ _ ++ "-" ++ (consistent_hash _).take 8
    have hin : hashInput (dinsert exSpec "pre_install" (JVal.set [.str "b", .str "a"]))
        = hashInput exSpec := by decide
    show _ ++ (sha256hex (strBytes (hashInput _ unhash_fields))).take 8
        = _ ++ (sha256hex (strBytes (hashInput _ unhash_fields))).take 8
    rw [hin]

/-- Claim C2, amended: changing only the `install`, `test_cmd` or
`eval_commands` field of a spec never changes `consistent_hash` or
`get_image_name` (those keys are dropped before hashing); the remaining
fields determine the identity only through their canonicalised form — two
specs whose filtered dicts canonicalise identically share hash and image
name, so changing another field is not guaranteed to change the identity
(see the set/list collision in the counterexample). -/
theorem claim_C2_amended :
    (∀ (d : SpecDict) (k : String) (v : JVal) (repo : String),
      k ∈ unhash_fields →
        consistent_hash (dinsert d k v) = consistent_hash d
        ∧ get_image_name repo (dinsert d k v) = get_image_name repo d)
    ∧ (∀ (d d' : SpecDict) (repo : String),
      make_hashable (.dict (filterUnhash d unhash_fields))
          = make_hashable (.dict (filterUnhash d' unhash_fields)) →
        consistent_hash d = consistent_hash d'
        ∧ get_image_name repo d = get_image_name repo d') := by
  constructor
  · intro d k v repo hk
    have hc : unhash_fields.contains k = true := by simpa using hk
    have hf := filterUnhash_dinsert_unhashed d unhash_fields k v hc
    have hh : consistent_hash (dinsert d k v) = consistent_hash d := by
      unfold consistent_hash hashInput
      rw [hf]
    exact ⟨hh, by unfold get_image_name; rw [hh]⟩
  · intro d d' repo hm
    have hh : consistent_hash d = consistent_hash d' := by
      unfold consistent_hash hashInput
      rw [hm]
    exact ⟨hh, by unfold get_image_name; rw [hh]⟩

/-- Witness for the amended claim C2 at a concrete spec: overwriting the
excluded `test_cmd` field leaves the hash unchanged. -/
theorem claim_C2_amended_witness :
    "test_cmd" ∈ unhash_fields
    ∧ consistent_hash (dinsert exSpec "test_cmd" (.str "pytest -q")) = consistent_hash exSpec :=
  ⟨by decide,
   (claim_C2_amended.1 exSpec "test_cmd" (.str "pytest -q") "org/repo" (by decide)).1⟩

/-! ## Claim C10 -/

/-- A world in which nothing is cached and the build itself succeeds. -/
def freshWorld : ImageBuilder.BuildWorld :=
  { localHas := fun _ => false
    pullOk := fun _ => false
    pull_from_registry := false
    buildErrorLog := fun _ => none }

/-- The `pre_install` length of a spec, used to tell the mutated spec from
the original. -/
def preInstallLen (d : SpecDict) : Nat :=
  (Option.map (fun v => match v with | JVal.list l => l.length | _ => 0)
    (dlookup d "pre_install")).getD 0

/-- A spec whose `pre_install` list does not contain `apt-get update`. -/
def exSpecPre : SpecDict :=
  [("python", .str "python3.10"),
   ("pre_install", .list [.str "foo"]),
   ("install", .str "pip install -e .")]

/-- Claim C10, code bug: a successful fresh build is claimed to leave the
callers spec dict unchanged, but `format_dockerfile` executes
`pre_install.insert(0, "apt-get update")` on the aliased list, so after the
build the spec dict differs from the input and its hash input (hence its
derived identity, barring a SHA-256 collision) differs too — the build
itself returns the image name computed from the pre-mutation hash. -/
theorem claim_C10_code_bug :
    dlookup ((ImageBuilder.build_docker_image_from_specs ∅ freshWorld "org/repo" exSpecPre
        false).spec_after) "pre_install"
      = some (.list [.str "apt-get update", .str "foo"])
    ∧ dlookup exSpecPre "pre_install" = some (.list [.str "foo"])
    ∧ (ImageBuilder.build_docker_image_from_specs ∅ freshWorld "org/repo" exSpecPre
        false).spec_after ≠ exSpecPre
    ∧ hashInput (ImageBuilder.build_docker_image_from_specs ∅ freshWorld "org/repo" exSpecPre
        false).spec_after ≠ hashInput exSpecPre
    ∧ (ImageBuilder.build_docker_image_from_specs ∅ freshWorld "org/repo" exSpecPre
        false).result = .ok (get_image_name "org/repo" exSpecPre) := by
  refine ⟨rfl, rfl, ?_, by decide, rfl⟩
  intro hEq
  exact absurd (congrArg preInstallLen hEq) (by decide)

/-! ## Classifier lemmas -/

/-- The key set of a Python dict. -/
def keysOf {α : Type} (d : List (String × α)) : Finset String := (d.map Prod.fst).toFinset

theorem keysOf_dinsert {α : Type} (d : List (String × α)) (k : String) (v : α) :
    keysOf (dinsert d k v) = insert k (keysOf d) := by
  induction d with
  | nil => simp [dinsert, keysOf]
  | cons kv rest ih =>
    by_cases hk : kv.1 = k
    · simp [dinsert, keysOf, hk]
    · simp only [dinsert, if_neg hk, keysOf, List.map_cons, List.toFinset_cons] at ih ⊢
      rw [ih, Finset.Insert.comm]

theorem Produce.failIds_cons (t : TestEntry) (rest : List TestEntry) :
    Produce.failIds (t :: rest) =
      if Produce.FAIL_OUTCOMES.contains t.outcome then insert t.nodeid (Produce.failIds rest)
      else Produce.failIds rest := by
  by_cases h : t.outcome ∈ Produce.FAIL_OUTCOMES
  · have hb : Produce.FAIL_OUTCOMES.contains t.outcome = true := by simpa using h
    rw [hb]
    simp [Produce.failIds, List.filter_cons, h]
  · have hb : Produce.FAIL_OUTCOMES.contains t.outcome = false := by simpa using h
    rw [hb]
    simp [Produce.failIds, List.filter_cons, h]

/-- A per-test detail is produced exactly for the `error` and `failed`
outcomes. -/
theorem crash_detail_of_none_iff (t : TestEntry) :
    crash_detail_of t = .ok none ↔ (t.outcome ≠ "error" ∧ t.outcome ≠ "failed") := by
  unfold crash_detail_of
  by_cases he : t.outcome = "error"
  · simp [he]
  · by_cases hf : t.outcome = "failed"
    · simp only [if_neg he, if_pos hf]
      constructor
      · intro h
        exfalso
        revert h
        cases t.crash <;> by_cases hs : phaseHasCrash t.setup <;>
          cases hc : t.call <;> simp [hs] <;> rename_i p <;> cases p.crash <;> simp
      · intro h
        exact absurd hf h.2
    · simp [he, hf]

/-- When the extraction loop succeeds, the keys it has produced are the
starting keys together with the node ids of the `error`/`failed` tests. -/
theorem extract_crash_loop_keys (tests : List TestEntry) :
    ∀ (acc out : List (String × String)), extract_crash_loop tests acc = .ok out →
      keysOf out = keysOf acc ∪ Produce.failIds tests := by
  induction tests with
  | nil =>
    intro acc out h
    simp only [extract_crash_loop] at h
    cases h
    simp [Produce.failIds, keysOf]
  | cons t rest ih =>
    intro acc out h
    simp only [extract_crash_loop] at h
    rw [Produce.failIds_cons]
    cases hcd : crash_detail_of t with
    | error e => rw [hcd] at h; cases h
    | ok od =>
      rw [hcd] at h
      cases od with
      | none =>
        have hout := (crash_detail_of_none_iff t).mp hcd
        have hfo : Produce.FAIL_OUTCOMES.contains t.outcome = false := by
          simp [Produce.FAIL_OUTCOMES, hout.1, hout.2]
        rw [hfo]
        simp only [Bool.false_eq_true, if_false]
        exact ih acc out h
      | some v =>
        have hfo : Produce.FAIL_OUTCOMES.contains t.outcome = true := by
          unfold crash_detail_of at hcd
          by_cases he : t.outcome = "error"
          · simp [Produce.FAIL_OUTCOMES, he]
          · by_cases hf : t.outcome = "failed"
            · simp [Produce.FAIL_OUTCOMES, hf]
            · rw [if_neg he, if_neg hf] at hcd
              cases hcd
        rw [hfo]
        simp only [if_true]
        have := ih (dinsert acc t.nodeid v) out h
        rw [this, keysOf_dinsert]
        rw [Finset.insert_union, Finset.union_insert]

/-- Reduction of `gatherEntry` on the no-error path: both rounds parsed and
the crash-detail extraction succeeded. -/
theorem gatherEntry_ok (pre post : RoundResult) (cd : List (String × String))
    (hpre : pre.error = none) (hpost : post.error = none)
    (hex : extract_crash_details_from_report post = .ok cd) :
    Produce.gatherEntry pre post = .ok (.result (Produce.rewriteRoot post.root
      { f2p := Produce.failIds pre.tests ∩ Produce.passIds post.tests
        p2p := Produce.passIds pre.tests ∩ Produce.passIds post.tests
        f2f := Produce.failIds pre.tests ∩ keysOf cd
        p2f := Produce.passIds pre.tests ∩ keysOf cd
        f2f_test_details :=
          cd.filter (fun kv => decide (kv.1 ∈ Produce.failIds pre.tests ∩ keysOf cd))
        p2f_test_details :=
          cd.filter (fun kv => decide (kv.1 ∈ Produce.passIds pre.tests ∩ keysOf cd)) })) := by
  unfold Produce.gatherEntry
  rw [hpost, hex, hpre]
  rfl

/-- Reduction of `gatherEntry` on the pre-round-error path. -/
theorem gatherEntry_preError (pre post : RoundResult) (cd : List (String × String)) (e : String)
    (hpre : pre.error = some e) (hpost : post.error = none)
    (hex : extract_crash_details_from_report post = .ok cd) :
    Produce.gatherEntry pre post = .ok (.result (Produce.rewriteRoot post.root
      { f2p := Produce.passIds post.tests
        f2f := keysOf cd
        f2f_test_details := cd })) := by
  unfold Produce.gatherEntry
  rw [hpost, hex, hpre]
  rfl

/-- A non-default root marker (`None` or `'/workspace'`) leaves the entry
untouched. -/
theorem rewriteRoot_default (root : Option String) (e : Produce.ResultEntry)
    (hroot : root = none ∨ root = some "/workspace") :
    Produce.rewriteRoot root e = e := by
  rcases hroot with h | h <;> simp [Produce.rewriteRoot, h]

/-! ## Claim C1 -/

/-- Claim C1: for an instance whose pre-round result is not an error (and
whose post-round parsed, with the crash-detail extraction succeeding and the
default root marker), the classifier emits exactly the four intersections
`f2p = pre_fail ∩ post_pass`, `p2p = pre_pass ∩ post_pass`,
`f2f = pre_fail ∩ post_fail`, `p2f = pre_pass ∩ post_fail`, where the pass
sets collect outcomes in `{passed, skipped}` and the fail sets outcomes in
`{failed, error}`. -/
theorem claim_C1 (pre post : RoundResult) (cd : List (String × String))
    (hpre : pre.error = none) (hpost : post.error = none)
    (hex : extract_crash_details_from_report post = .ok cd)
    (hroot : post.root = none ∨ post.root = some "/workspace") :
    ∃ s : Produce.ResultEntry,
      Produce.gatherEntry pre post = .ok (.result s)
      ∧ s.f2p = Produce.failIds pre.tests ∩ Produce.passIds post.tests
      ∧ s.p2p = Produce.passIds pre.tests ∩ Produce.passIds post.tests
      ∧ s.f2f = Produce.failIds pre.tests ∩ Produce.failIds post.tests
      ∧ s.p2f = Produce.passIds pre.tests ∩ Produce.failIds post.tests := by
  have hk : keysOf cd = Produce.failIds post.tests := by
    have h := extract_crash_loop_keys post.tests [] cd hex
    simpa [keysOf] using h
  have hg := gatherEntry_ok pre post cd hpre hpost hex
  rw [rewriteRoot_default post.root _ hroot] at hg
  exact ⟨_, hg, rfl, rfl, by rw [hk], by rw [hk]⟩

/-- The pre-round report of the scenario: `t1`, `t2` failing, `t3`
passing. -/
def preScenario : RoundResult :=
  { tests := [{ nodeid := "t1", outcome := "failed" },
              { nodeid := "t2", outcome := "error",
                setup := some { outcome := some "failed", longrepr := some "boom" } },
              { nodeid := "t3", outcome := "passed" }] }

/-- The post-round report of the scenario: `t1`, `t3` passing, `t2`
failing. -/
def postScenario : RoundResult :=
  { tests := [{ nodeid := "t1", outcome := "passed" },
              { nodeid := "t3", outcome := "passed" },
              { nodeid := "t2", outcome := "failed" }] }

/-- The classification the scenario reports produce. -/
def scenarioEntry : Produce.ResultEntry :=
  { f2p := {"t1"}, p2p := {"t3"}, f2f := {"t2"}, p2f := ∅,
    f2f_test_details := [("t2", "")], p2f_test_details := [] }

/-- Witness for claim C1 at the scenario of the specification:
`pre_fail = {t1, t2}`, `pre_pass = {t3}`, `post_pass = {t1, t3}`,
`post_fail = {t2}` gives `f2p = {t1}`, `p2p = {t3}`, `f2f = {t2}`,
`p2f = {}`. -/
theorem claim_C1_witness :
    (preScenario.error = none ∧ postScenario.error = none
      ∧ extract_crash_details_from_report postScenario = .ok [("t2", "")]
      ∧ (∃ s : Produce.ResultEntry,
          Produce.gatherEntry preScenario postScenario = .ok (.result s)
          ∧ s.f2p = Produce.failIds preScenario.tests ∩ Produce.passIds postScenario.tests
          ∧ s.p2p = Produce.passIds preScenario.tests ∩ Produce.passIds postScenario.tests
          ∧ s.f2f = Produce.failIds preScenario.tests ∩ Produce.failIds postScenario.tests
          ∧ s.p2f = Produce.passIds preScenario.tests ∩ Produce.failIds postScenario.tests))
    ∧ Produce.gatherEntry preScenario postScenario = .ok (.result scenarioEntry) :=
  ⟨⟨rfl, rfl, rfl,
    claim_C1 preScenario postScenario [("t2", "")] rfl rfl rfl (Or.inl rfl)⟩,
   by decide⟩

/-! ## Claim C3 -/

/-- Claim C3: when the pre-round result is an error and the post round
parsed (with the crash-detail extraction succeeding and the default root
marker), the classifier outputs `f2p` equal to exactly the post-round
passed/skipped set, `f2f` equal to exactly the keys of the extracted
crash-detail map — the post-round `failed`/`error` node ids — and empty
`p2p` and `p2f`. -/
theorem claim_C3 (pre post : RoundResult) (cd : List (String × String)) (e : String)
    (hpre : pre.error = some e) (hpost : post.error = none)
    (hex : extract_crash_details_from_report post = .ok cd)
    (hroot : post.root = none ∨ post.root = some "/workspace") :
    ∃ s : Produce.ResultEntry,
      Produce.gatherEntry pre post = .ok (.result s)
      ∧ s.f2p = Produce.passIds post.tests
      ∧ s.f2f = keysOf cd
      ∧ s.f2f = Produce.failIds post.tests
      ∧ s.f2f_test_details = cd
      ∧ s.p2p = ∅
      ∧ s.p2f = ∅ := by
  have hk : keysOf cd = Produce.failIds post.tests := by
    have h := extract_crash_loop_keys post.tests [] cd hex
    simpa [keysOf] using h
  have hg := gatherEntry_preError pre post cd e hpre hpost hex
  rw [rewriteRoot_default post.root _ hroot] at hg
  exact ⟨_, hg, rfl, rfl, hk, rfl, rfl, rfl⟩

/-- A pre-round result that is an error entry. -/
def preErrScenario : RoundResult := { error := some "environment evaluation failed" }

/-- The classification produced for an errored pre round against
`postScenario`. -/
def preErrEntry : Produce.ResultEntry :=
  { f2p := {"t1", "t3"}, p2p := ∅, f2f := {"t2"}, p2f := ∅,
    f2f_test_details := [("t2", "")], p2f_test_details := [] }

/-- Witness for claim C3: with an errored pre round, `f2p` is the whole
post-round pass set `{t1, t3}` and `f2f` is the crashed set `{t2}`. -/
theorem claim_C3_witness :
    (preErrScenario.error = some "environment evaluation failed"
      ∧ postScenario.error = none
      ∧ extract_crash_details_from_report postScenario = .ok [("t2", "")]
      ∧ (∃ s : Produce.ResultEntry,
          Produce.gatherEntry preErrScenario postScenario = .ok (.result s)
          ∧ s.f2p = Produce.passIds postScenario.tests
          ∧ s.f2f = keysOf [("t2", "")]
          ∧ s.f2f = Produce.failIds postScenario.tests
          ∧ s.f2f_test_details = [("t2", "")]
          ∧ s.p2p = ∅
          ∧ s.p2f = ∅))
    ∧ Produce.gatherEntry preErrScenario postScenario = .ok (.result preErrEntry) :=
  ⟨⟨rfl, rfl, rfl,
    claim_C3 preErrScenario postScenario [("t2", "")] "environment evaluation failed"
      rfl rfl rfl (Or.inl rfl)⟩,
   by decide⟩

/-! ## Claim C4 -/

/-- Claim C4, amended: the four emitted sets are pairwise disjoint provided
no node id occurs in a rounds tests with both a passing-side and a
failing-side outcome (so each rounds pass and fail id sets are disjoint;
a report listing the same node id twice with conflicting outcomes breaks
this) and the post-round root marker is the default (a non-default root can
merge distinct node ids when one of them is absolute). -/
theorem claim_C4_amended (pre post : RoundResult) (s : Produce.ResultEntry)
    (hok : Produce.gatherEntry pre post = .ok (.result s))
    (hpre : Disjoint (Produce.passIds pre.tests) (Produce.failIds pre.tests))
    (hpost : Disjoint (Produce.passIds post.tests) (Produce.failIds post.tests))
    (hroot : post.root = none ∨ post.root = some "/workspace") :
    s.f2p ∩ s.p2p = ∅ ∧ s.f2p ∩ s.f2f = ∅ ∧ s.f2p ∩ s.p2f = ∅
    ∧ s.p2p ∩ s.f2f = ∅ ∧ s.p2p ∩ s.p2f = ∅ ∧ s.f2f ∩ s.p2f = ∅ := by
  have hpre' := Finset.disjoint_left.mp hpre
  have hpost' := Finset.disjoint_left.mp hpost
  cases hpostErr : post.error with
  | some e =>
    have hu : Produce.gatherEntry pre post = .ok (.err e) := by
      unfold Produce.gatherEntry
      rw [hpostErr]
    rw [hu] at hok
    simp at hok
  | none =>
    cases hex : extract_crash_details_from_report post with
    | error er =>
      have hu : Produce.gatherEntry pre post = .error er := by
        unfold Produce.gatherEntry
        rw [hpostErr, hex]
        rfl
      rw [hu] at hok
      simp at hok
    | ok cd =>
      have hk : keysOf cd = Produce.failIds post.tests := by
        have h := extract_crash_loop_keys post.tests [] cd hex
        simpa [keysOf] using h
      cases hpreErr : pre.error with
      | some e0 =>
        have hg := gatherEntry_preError pre post cd e0 hpreErr hpostErr hex
        rw [rewriteRoot_default post.root _ hroot] at hg
        rw [hok] at hg
        have hs : s = ({ f2p := Produce.passIds post.tests
                         f2f := keysOf cd
                         f2f_test_details := cd } : Produce.ResultEntry) := by
          simpa using hg
        subst hs
        refine ⟨by simp, ?_, by simp, by simp, by simp, by simp⟩
        show Produce.passIds post.tests ∩ keysOf cd = ∅
        rw [hk]
        exact Finset.disjoint_iff_inter_eq_empty.mp hpost
      | none =>
        have hg := gatherEntry_ok pre post cd hpreErr hpostErr hex
        rw [rewriteRoot_default post.root _ hroot] at hg
        rw [hok] at hg
        have hs : s = ({ f2p := Produce.failIds pre.tests ∩ Produce.passIds post.tests
                         p2p := Produce.passIds pre.tests ∩ Produce.passIds post.tests
                         f2f := Produce.failIds pre.tests ∩ keysOf cd
                         p2f := Produce.passIds pre.tests ∩ keysOf cd
                         f2f_test_details := cd.filter
                           (fun kv => decide (kv.1 ∈ Produce.failIds pre.tests ∩ keysOf cd))
                         p2f_test_details := cd.filter
                           (fun kv => decide (kv.1 ∈ Produce.passIds pre.tests ∩ keysOf cd)) }
            : Produce.ResultEntry) := by
          simpa using hg
        subst hs
        simp only [hk]
        refine ⟨?_, ?_, ?_, ?_, ?_, ?_⟩ <;>
          · apply Finset.eq_empty_iff_forall_not_mem.mpr
            intro x hx
            simp only [Finset.mem_inter] at hx
            first
              | exact hpre' hx.2.1 hx.1.1
              | exact hpre' hx.1.1 hx.2.1
              | exact hpost' hx.1.2 hx.2.2

/-- A pre-round report listing the same node id with both a passing and a
failing outcome. -/
def dupPre : RoundResult :=
  { tests := [{ nodeid := "t1", outcome := "passed" },
              { nodeid := "t1", outcome := "failed" }] }

/-- A post-round report where the duplicated node id passes. -/
def dupPost : RoundResult :=
  { tests := [{ nodeid := "t1", outcome := "passed" }] }

/-- A pre-round report with a relative and an absolute node id. -/
def rootPre : RoundResult :=
  { tests := [{ nodeid := "x", outcome := "failed" },
              { nodeid := "/r/x", outcome := "passed" }] }

/-- A post-round report with a non-default root marker `/r`; joining `/r`
onto the relative id `x` collides with the absolute id `/r/x`. -/
def rootPost : RoundResult :=
  { tests := [{ nodeid := "x", outcome := "passed" },
              { nodeid := "/r/x", outcome := "passed" }],
    root := some "/r" }

/-- Claim C4, counterexample: as stated over every pair of reports the
pairwise disjointness fails — `dupPre`/`dupPost` put `t1` into both
`FAIL_TO_PASS` and `PASS_TO_PASS`, and the non-default root of `rootPost`
merges the distinct node ids `x` and `/r/x` into the same emitted id in two
different sets. -/
theorem claim_C4_counterexample :
    (∃ s : Produce.ResultEntry, Produce.gatherEntry dupPre dupPost = .ok (.result s)
        ∧ s.f2p ∩ s.p2p ≠ ∅)
    ∧ (∃ s : Produce.ResultEntry, Produce.gatherEntry rootPre rootPost = .ok (.result s)
        ∧ s.f2p ∩ s.p2p ≠ ∅) :=
  ⟨⟨_, rfl, by decide⟩, ⟨_, rfl, by decide⟩⟩

/-- Witness for the amended claim C4 at the scenario reports, whose rounds
each give one outcome per node id and whose root marker is absent. -/
theorem claim_C4_amended_witness :
    Produce.gatherEntry preScenario postScenario = .ok (.result scenarioEntry)
    ∧ Disjoint (Produce.passIds preScenario.tests) (Produce.failIds preScenario.tests)
    ∧ Disjoint (Produce.passIds postScenario.tests) (Produce.failIds postScenario.tests)
    ∧ (scenarioEntry.f2p ∩ scenarioEntry.p2p = ∅
      ∧ scenarioEntry.f2p ∩ scenarioEntry.f2f = ∅
      ∧ scenarioEntry.f2p ∩ scenarioEntry.p2f = ∅
      ∧ scenarioEntry.p2p ∩ scenarioEntry.f2f = ∅
      ∧ scenarioEntry.p2p ∩ scenarioEntry.p2f = ∅
      ∧ scenarioEntry.f2f ∩ scenarioEntry.p2f = ∅) :=
  ⟨by decide, by decide, by decide,
   claim_C4_amended preScenario postScenario scenarioEntry (by decide) (by decide) (by decide)
     (Or.inl rfl)⟩

/-! ## Claim C9 -/

/-- A failed test with crash information in both its setup and call phases
and no top-level crash field. -/
def failedBoth : TestEntry :=
  { nodeid := "t1", outcome := "failed",
    setup := some { outcome := some "failed", crash := some "setup boom" },
    call := some { outcome := some "failed", crash := some "call boom" } }

/-- Claim C9, counterexample: the claim says the extraction prefers the
`call` phase crash text first, so it should yield `call boom` for
`failedBoth`; the code instead consults `setup` before `call` and, in that
branch, reads the absent top-level `crash` key, so the extraction raises
`KeyError` and produces no detail at all. -/
theorem claim_C9_counterexample :
    extract_crash_details_from_report { tests := [failedBoth] } = .error "KeyError: crash"
    ∧ extract_crash_details_from_report { tests := [failedBoth] } ≠ .ok [("t1", "call boom")] :=
  ⟨rfl, by decide⟩

/-- Claim C9, amended: the extraction covers the `error` and `failed`
outcomes; for a `failed` test it takes the top-level crash text first when
present; otherwise, if the setup phase has crash text it raises `KeyError`
(reading the absent top-level key); otherwise it prefers the `call` phase
crash text, then the `teardown` phase crash text, and otherwise records the
empty string. -/
theorem claim_C9_amended :
    (∀ t : TestEntry, t.outcome = "error" →
      ∃ v, extract_crash_details_from_report { tests := [t] } = .ok [(t.nodeid, v)])
    ∧ (∀ (t : TestEntry) (c : String), t.outcome = "failed" → t.crash = some c →
      extract_crash_details_from_report { tests := [t] } = .ok [(t.nodeid, c)])
    ∧ (∀ (t : TestEntry) (p : Phase), t.outcome = "failed" → t.crash = none →
      t.setup = some p → p.crash.isSome →
      extract_crash_details_from_report { tests := [t] } = .error "KeyError: crash")
    ∧ (∀ (t : TestEntry) (p : Phase) (c : String), t.outcome = "failed" → t.crash = none →
      phaseHasCrash t.setup = false → t.call = some p → p.crash = some c →
      extract_crash_details_from_report { tests := [t] } = .ok [(t.nodeid, c)])
    ∧ (∀ t : TestEntry, t.outcome = "failed" → t.crash = none →
      phaseHasCrash t.setup = false → (∀ p, t.call = some p → p.crash = none) →
      extract_crash_details_from_report { tests := [t] }
        = .ok [(t.nodeid, crash_detail_teardown t)]) := by
  refine ⟨?_, ?_, ?_, ?_, ?_⟩
  · intro t h
    refine ⟨(match t.setup with | some p => p.longrepr.getD "" ++ "\n" | none => "")
      ++ (match t.call with | some p => p.longrepr.getD "" ++ "\n" | none => "")
      ++ (match t.teardown with | some p => p.longrepr.getD "" | none => ""), ?_⟩
    simp [extract_crash_details_from_report, extract_crash_loop, crash_detail_of, h, dinsert]
  · intro t c h1 h2
    simp [extract_crash_details_from_report, extract_crash_loop, crash_detail_of, h1, h2,
      dinsert]
  · intro t p h1 h2 h3 h4
    simp [extract_crash_details_from_report, extract_crash_loop, crash_detail_of, h1, h2,
      phaseHasCrash, h3, h4]
  · intro t p c h1 h2 h3 h4 h5
    simp [extract_crash_details_from_report, extract_crash_loop, crash_detail_of, h1, h2, h3,
      h4, h5, dinsert]
  · intro t h1 h2 h3 h4
    cases hc : t.call with
    | none =>
      simp [extract_crash_details_from_report, extract_crash_loop, crash_detail_of, h1, h2, h3,
        hc, dinsert]
    | some p =>
      have h5 := h4 p hc
      simp [extract_crash_details_from_report, extract_crash_loop, crash_detail_of, h1, h2, h3,
        hc, h5, dinsert]

/-- A failed test whose only crash text sits in the `call` phase. -/
def failedCallOnly : TestEntry :=
  { nodeid := "t1", outcome := "failed",
    call := some { outcome := some "failed", crash := some "call boom" } }

/-- Witness for the amended claim C9: with crash text only in the `call`
phase, the extraction yields exactly that text. -/
theorem claim_C9_amended_witness :
    failedCallOnly.outcome = "failed" ∧ failedCallOnly.crash = none
    ∧ phaseHasCrash failedCallOnly.setup = false
    ∧ failedCallOnly.call = some { outcome := some "failed", crash := some "call boom" }
    ∧ extract_crash_details_from_report { tests := [failedCallOnly] }
        = .ok [("t1", "call boom")] :=
  ⟨rfl, rfl, rfl, rfl,
   claim_C9_amended.2.2.2.1 failedCallOnly { outcome := some "failed", crash := some "call boom" }
     "call boom" rfl rfl rfl rfl rfl⟩

/-! ## Claim C5 -/

/-- A node id that appears in none of the report's tests is absent from the
short map built over them. -/
theorem dlookup_shortfold_not_mem (tests : List TestEntry) (f : TestEntry → Bool)
    (t : String) :
    ∀ m0 : List (String × Bool), t ∉ tests.map TestEntry.nodeid →
      dlookup (tests.foldl (fun m x => dinsert m x.nodeid (f x)) m0) t = dlookup m0 t := by
  induction tests with
  | nil => intro m0 _; rfl
  | cons x xs ih =>
    intro m0 hmiss
    simp only [List.map_cons, List.mem_cons, not_or] at hmiss
    rw [List.foldl_cons, ih _ hmiss.2, dlookup_dinsert_other _ _ _ _ hmiss.1]

/-- Folding `m[t] = False` over a list marks every listed id `False`. -/
theorem dlookup_foldfalse (l : List String) (t : String) :
    ∀ m0 : List (String × Bool),
      (t ∈ l ∨ dlookup m0 t = some false) →
      dlookup (l.foldl (fun m x => dinsert m x false) m0) t = some false := by
  induction l with
  | nil =>
    intro m0 h
    rcases h with h | h
    · simp at h
    · exact h
  | cons x xs ih =>
    intro m0 h
    rw [List.foldl_cons]
    by_cases hx : t ∈ xs
    · exact ih _ (Or.inl hx)
    · apply ih _
      right
      rcases h with h | h
      · rcases List.mem_cons.mp h with rfl | h2
        · exact dlookup_dinsert_self m0 t false
        · exact absurd h2 hx
      · by_cases hxt : t = x
        · subst hxt
          exact dlookup_dinsert_self m0 t false
        · rw [dlookup_dinsert_other _ _ _ _ hxt]
          exact h

/-- Claim C5, amended: the missing-test reconciliation only runs when the
report lists fewer tests than were requested (`len(results.tests) <
len(tests)`).  Under that count condition — and a collector validation that
did not raise — every requested id absent from the report is marked `False`
in the short map, and in full-report mode gains a synthesized `error` entry
annotated with the first substring-matching problematic collector's failure
text. -/
theorem claim_C5_amended (results : RunInstance.PyReport) (tests : List String)
    (skipped_ok ignore_collector_errors : Bool) (t : String) (probs : List (String × String))
    (hvc : RunInstance.collector_check results tests ignore_collector_errors = .ok probs)
    (hcount : results.tests.length < tests.length)
    (ht : t ∈ tests)
    (hmiss : t ∉ results.tests.map TestEntry.nodeid) :
    (∃ m, RunInstance.gather_results results tests skipped_ok true ignore_collector_errors
        = .ok (.short m) ∧ dlookup m t = some false)
    ∧ (∃ r2 : RunInstance.PyReport,
        RunInstance.gather_results results tests skipped_ok false ignore_collector_errors
          = .ok (.full r2)
        ∧ RunInstance.compose_a_report_for_missing_test t
            (RunInstance.find_matching_longrepr probs t) ∈ r2.tests) := by
  have hne : tests ≠ [] := by
    intro h
    rw [h] at hcount
    simp at hcount
  have hcond : tests ≠ [] ∧ results.tests.length < tests.length := ⟨hne, hcount⟩
  have hnone : dlookup (RunInstance.shortResults results.tests skipped_ok) t = none := by
    unfold RunInstance.shortResults
    rw [dlookup_shortfold_not_mem _ _ _ _ hmiss]
    rfl
  have hmissing : t ∈ tests.filter
      (fun x => (dlookup (RunInstance.shortResults results.tests skipped_ok) x).isNone) := by
    apply List.mem_filter.mpr
    exact ⟨ht, by rw [hnone]; rfl⟩
  constructor
  · refine ⟨(tests.filter
        (fun x => (dlookup (RunInstance.shortResults results.tests skipped_ok) x).isNone)).foldl
        (fun m x => dinsert m x false) (RunInstance.shortResults results.tests skipped_ok),
      ?_, ?_⟩
    · unfold RunInstance.gather_results
      rw [hvc]
      simp only [Except.bind]
      rw [if_pos hcond]
      rfl
    · exact dlookup_foldfalse _ _ _ (Or.inl hmissing)
  · refine ⟨⟨results.tests ++ (tests.filter
        (fun x => (dlookup (RunInstance.shortResults results.tests skipped_ok) x).isNone)).map
        (fun x => RunInstance.compose_a_report_for_missing_test x
          (RunInstance.find_matching_longrepr probs x)), results.collectors⟩, ?_, ?_⟩
    · unfold RunInstance.gather_results
      rw [hvc]
      simp only [Except.bind]
      rw [if_pos hcond]
      rfl
    · show _ ∈ results.tests ++ _
      apply List.mem_append.mpr
      right
      exact List.mem_map.mpr ⟨t, hmissing, rfl⟩

/-- A report listing only the passing test `b`. -/
def reportOnlyB : RunInstance.PyReport :=
  { tests := [{ nodeid := "b", outcome := "passed" }] }

/-- Claim C5, counterexample: requested id `a` never appears in the report,
but because the report lists as many tests as were requested
(`1 < 1` fails) no reconciliation happens — the short map does not mark `a`
failed (it does not mention `a` at all) and the full report gains no
synthesized entry. -/
theorem claim_C5_counterexample :
    RunInstance.gather_results reportOnlyB ["a"] true true false
        = .ok (.short [("b", true)])
    ∧ RunInstance.gather_results reportOnlyB ["a"] true false false = .ok (.full reportOnlyB)
    ∧ dlookup [("b", true)] "a" = none :=
  ⟨by decide, by decide, rfl⟩

/-- Witness for the amended claim C5: requesting `a`, `c` against
`reportOnlyB` (one reported test, two requested) marks both missing ids
failed and synthesizes error entries in full mode. -/
theorem claim_C5_amended_witness :
    RunInstance.collector_check reportOnlyB ["a", "c"] false = .ok []
    ∧ reportOnlyB.tests.length < (["a", "c"] : List String).length
    ∧ "a" ∈ (["a", "c"] : List String)
    ∧ "a" ∉ reportOnlyB.tests.map TestEntry.nodeid
    ∧ ((∃ m, RunInstance.gather_results reportOnlyB ["a", "c"] true true false
          = .ok (.short m) ∧ dlookup m "a" = some false)
      ∧ (∃ r2 : RunInstance.PyReport,
          RunInstance.gather_results reportOnlyB ["a", "c"] true false false
            = .ok (.full r2)
          ∧ RunInstance.compose_a_report_for_missing_test "a"
              (RunInstance.find_matching_longrepr [] "a") ∈ r2.tests))
    ∧ RunInstance.gather_results reportOnlyB ["a", "c"] true true false
        = .ok (.short [("b", true), ("a", false), ("c", false)]) :=
  ⟨rfl, by decide, by decide, by decide,
   claim_C5_amended reportOnlyB ["a", "c"] true false "a" [] rfl (by decide) (by decide)
     (by decide),
   by decide⟩

/-! ## Claim C6 -/

theorem dinsert_ne_nil {α : Type} (d : List (String × α)) (k : String) (v : α) :
    dinsert d k v ≠ [] := by
  cases d with
  | nil => simp [dinsert]
  | cons kv rest =>
    unfold dinsert
    by_cases h : kv.1 = k <;> simp [h]

/-- A failed collector whose text mentions an import error makes the
validation loop raise, wherever it sits in the list. -/
theorem validate_loop_import (cs : List RunInstance.Collector) (c : RunInstance.Collector)
    (hc : c ∈ cs) (hf : c.outcome = "failed")
    (hi : (strHas c.longrepr "ModuleNotFoundError" || strHas c.longrepr "ImportError") = true) :
    ∀ probs, ∃ e, RunInstance.validate_loop cs probs = .error e := by
  induction cs with
  | nil => cases hc
  | cons x xs ih =>
    intro probs
    rcases List.mem_cons.mp hc with rfl | hmem
    · refine ⟨"Failed to collect tests due to an ImportError: " ++ c.nodeid ++ "\n"
        ++ c.longrepr, ?_⟩
      unfold RunInstance.validate_loop
      rw [if_pos hf, if_pos hi]
    · unfold RunInstance.validate_loop
      by_cases hxf : x.outcome = "failed"
      · rw [if_pos hxf]
        by_cases hxi : (strHas x.longrepr "ModuleNotFoundError"
            || strHas x.longrepr "ImportError") = true
        · refine ⟨"Failed to collect tests due to an ImportError: " ++ x.nodeid ++ "\n"
            ++ x.longrepr, ?_⟩
          rw [if_pos hxi]
        · rw [if_neg hxi]
          exact ih hmem _
      · rw [if_neg hxf]
        exact ih hmem _

/-- Without import errors among the failed collectors the validation loop
finishes normally. -/
theorem validate_loop_ok (cs : List RunInstance.Collector)
    (h : ∀ c ∈ cs, c.outcome = "failed" →
      (strHas c.longrepr "ModuleNotFoundError" || strHas c.longrepr "ImportError") = false) :
    ∀ probs, ∃ probs2, RunInstance.validate_loop cs probs = .ok probs2 := by
  induction cs with
  | nil => intro probs; exact ⟨probs, rfl⟩
  | cons x xs ih =>
    intro probs
    unfold RunInstance.validate_loop
    by_cases hxf : x.outcome = "failed"
    · rw [if_pos hxf]
      have hxi := h x (List.mem_cons_self x xs) hxf
      rw [hxi]
      simp only [Bool.false_eq_true, if_false]
      exact ih (fun c hc => h c (List.mem_cons_of_mem x hc)) _
    · rw [if_neg hxf]
      exact ih (fun c hc => h c (List.mem_cons_of_mem x hc)) _

/-- When a failed collector is present, a successful validation loop ends
with a non-empty `problematic_collectors` dict. -/
theorem validate_loop_ne_nil (cs : List RunInstance.Collector) :
    ∀ (probs probs2 : List (String × String)),
      RunInstance.validate_loop cs probs = .ok probs2 →
      (probs ≠ [] ∨ ∃ c ∈ cs, c.outcome = "failed") → probs2 ≠ [] := by
  induction cs with
  | nil =>
    intro probs probs2 h hd
    unfold RunInstance.validate_loop at h
    cases h
    rcases hd with hd | ⟨c, hc, _⟩
    · exact hd
    · cases hc
  | cons x xs ih =>
    intro probs probs2 h hd
    unfold RunInstance.validate_loop at h
    by_cases hxf : x.outcome = "failed"
    · rw [if_pos hxf] at h
      by_cases hxi : (strHas x.longrepr "ModuleNotFoundError"
          || strHas x.longrepr "ImportError") = true
      · rw [if_pos hxi] at h
        cases h
      · rw [if_neg hxi] at h
        exact ih _ _ h (Or.inl (dinsert_ne_nil _ _ _))
    · rw [if_neg hxf] at h
      apply ih _ _ h
      rcases hd with hd | ⟨c, hc, hcf⟩
      · exact Or.inl hd
      · rcases List.mem_cons.mp hc with rfl | hmem
        · exact absurd hcf hxf
        · exact Or.inr ⟨c, hmem, hcf⟩

/-- Claim C6, amended: provided the requested test list is non-empty (with
no requested tests the collectors are not validated at all) and the report
carries a collectors list, a failed collector whose long text mentions
`ModuleNotFoundError` or `ImportError` makes result gathering raise
regardless of `ignore_collector_errors`; failed collectors without such
an importing failure make it raise exactly when `ignore_collector_errors`
is not set. -/
theorem claim_C6_amended :
    (∀ (results : RunInstance.PyReport) (tests : List String) (sk sh ig : Bool)
      (cs : List RunInstance.Collector) (c : RunInstance.Collector),
      tests ≠ [] → results.collectors = some cs → c ∈ cs → c.outcome = "failed" →
      (strHas c.longrepr "ModuleNotFoundError" || strHas c.longrepr "ImportError") = true →
      ∃ e, RunInstance.gather_results results tests sk sh ig = .error e)
    ∧ (∀ (results : RunInstance.PyReport) (tests : List String) (sk sh : Bool)
      (cs : List RunInstance.Collector),
      results.collectors = some cs →
      (∀ c ∈ cs, c.outcome = "failed" →
        (strHas c.longrepr "ModuleNotFoundError" || strHas c.longrepr "ImportError") = false) →
      ∃ out, RunInstance.gather_results results tests sk sh true = .ok out)
    ∧ (∀ (results : RunInstance.PyReport) (tests : List String) (sk sh : Bool)
      (cs : List RunInstance.Collector) (c : RunInstance.Collector),
      tests ≠ [] → results.collectors = some cs → c ∈ cs → c.outcome = "failed" →
      ∃ e, RunInstance.gather_results results tests sk sh false = .error e) := by
  refine ⟨?_, ?_, ?_⟩
  · intro results tests sk sh ig cs c hne hcs hc hf hi
    obtain ⟨e, he⟩ := validate_loop_import cs c hc hf hi []
    refine ⟨e, ?_⟩
    unfold RunInstance.gather_results RunInstance.collector_check
    rw [if_neg hne, hcs]
    simp only [he, Except.bind]
  · intro results tests sk sh cs hcs hni
    by_cases hne : tests = []
    · subst hne
      unfold RunInstance.gather_results RunInstance.collector_check
      simp only [if_pos rfl]
      cases sh <;> exact ⟨_, rfl⟩
    · obtain ⟨probs2, hp⟩ := validate_loop_ok cs hni []
      unfold RunInstance.gather_results RunInstance.collector_check
      rw [if_neg hne, hcs]
      simp only [hp, Except.bind]
      simp only [not_true, and_false, if_false]
      by_cases hcond : tests ≠ [] ∧ results.tests.length < tests.length
      · rw [if_pos hcond]
        cases sh <;> exact ⟨_, rfl⟩
      · rw [if_neg hcond]
        cases sh <;> exact ⟨_, rfl⟩
  · intro results tests sk sh cs c hne hcs hc hf
    cases hv : RunInstance.validate_loop cs [] with
    | error e =>
      refine ⟨e, ?_⟩
      unfold RunInstance.gather_results RunInstance.collector_check
      rw [if_neg hne, hcs]
      simp only [hv, Except.bind]
    | ok probs2 =>
      have hp2 : probs2 ≠ [] := validate_loop_ne_nil cs [] probs2 hv (Or.inr ⟨c, hc, hf⟩)
      refine ⟨"Failed to collect tests: problematic collectors recorded", ?_⟩
      unfold RunInstance.gather_results RunInstance.collector_check
      rw [if_neg hne, hcs]
      simp only [hv, Except.bind]
      rw [if_pos ⟨hp2, by simp⟩]

/-- A collector that failed with an import error. -/
def colImportErr : RunInstance.Collector :=
  { nodeid := "tests/test_a.py", outcome := "failed",
    longrepr := "ImportError: no module named foo" }

/-- A report whose only content is the failed import-error collector. -/
def reportImportErr : RunInstance.PyReport :=
  { tests := [], collectors := some [colImportErr] }

/-- Claim C6, counterexample: the report carries a failed collector whose
text contains `ImportError`, yet with an empty requested test list result
gathering returns normally (with `ignore_collector_errors` unset, even) —
the collector validation is guarded by `if tests`. -/
theorem claim_C6_counterexample :
    colImportErr.outcome = "failed"
    ∧ strHas colImportErr.longrepr "ImportError" = true
    ∧ RunInstance.gather_results reportImportErr [] true true false = .ok (.short []) :=
  ⟨rfl, by decide, by decide⟩

/-- Witness for the amended claim C6: with a non-empty requested list the
same import-error collector makes gathering raise even though
`ignore_collector_errors` is set. -/
theorem claim_C6_amended_witness :
    ((["a"] : List String) ≠ []
      ∧ reportImportErr.collectors = some [colImportErr]
      ∧ colImportErr ∈ [colImportErr]
      ∧ colImportErr.outcome = "failed"
      ∧ (strHas colImportErr.longrepr "ModuleNotFoundError"
          || strHas colImportErr.longrepr "ImportError") = true)
    ∧ (∃ e, RunInstance.gather_results reportImportErr ["a"] true true true = .error e) :=
  ⟨⟨by decide, rfl, List.mem_singleton.mpr rfl, rfl, by decide⟩,
   claim_C6_amended.1 reportImportErr ["a"] true true true [colImportErr] colImportErr
     (by decide) rfl (List.mem_singleton.mpr rfl) rfl (by decide)⟩

/-! ## Claim C7 -/

/-- The fail-fast branch of `build_docker_image_from_specs`: a previously
failed identity raises at once, attempts no step, and changes nothing. -/
theorem build_failfast (failed_images : Finset String) (w : ImageBuilder.BuildWorld)
    (repo_name : String) (spec_dict : SpecDict) (force_rebuild : Bool)
    (h : get_image_name repo_name spec_dict ∈ failed_images) :
    ImageBuilder.build_docker_image_from_specs failed_images w repo_name spec_dict force_rebuild
      = { failed := failed_images
          result := .error ("Failed to build image " ++ get_image_name repo_name spec_dict
            ++ " before. Skipping the build.")
          actions := []
          spec_after := spec_dict } := by
  unfold ImageBuilder.build_docker_image_from_specs
  rw [if_pos h]

/-- One build call never removes an identity from the failed set. -/
theorem build_failed_monotone (failed_images : Finset String) (w : ImageBuilder.BuildWorld)
    (repo_name : String) (spec_dict : SpecDict) (force_rebuild : Bool) (x : String)
    (hx : x ∈ failed_images) :
    x ∈ (ImageBuilder.build_docker_image_from_specs failed_images w repo_name spec_dict
      force_rebuild).failed := by
  unfold ImageBuilder.build_docker_image_from_specs
  dsimp only
  by_cases h1 : get_image_name repo_name spec_dict ∈ failed_images
  · rw [if_pos h1]; exact hx
  · rw [if_neg h1]
    by_cases h2 : ¬force_rebuild = true
      ∧ w.localHas (get_image_name repo_name spec_dict) = true
    · rw [if_pos h2]; exact hx
    · rw [if_neg h2]
      by_cases h3 : ¬force_rebuild = true ∧ w.pull_from_registry = true
        ∧ w.pullOk (get_image_name repo_name spec_dict) = true
      · rw [if_pos h3]; exact hx
      · rw [if_neg h3]
        cases hb : w.buildErrorLog (get_image_name repo_name spec_dict) with
        | some e =>
          simp only [hb]
          exact Finset.mem_insert_of_mem hx
        | none =>
          simp only [hb]
          exact hx

/-- No sequence of later build requests removes an identity from the failed
set. -/
theorem runBuildRequests_monotone (w : ImageBuilder.BuildWorld) :
    ∀ (reqs : List ImageBuilder.BuildRequest) (failed_images : Finset String) (x : String),
      x ∈ failed_images → x ∈ (ImageBuilder.runBuildRequests failed_images w reqs).1 := by
  intro reqs
  induction reqs with
  | nil => intro failed_images x hx; exact hx
  | cons r rest ih =>
    intro failed_images x hx
    unfold ImageBuilder.runBuildRequests
    exact ih _ x (build_failed_monotone failed_images w r.repo_name r.spec_dict r.force_rebuild
      x hx)

/-- Every later request for a failed identity is answered by the fail-fast
error with no attempted step, wherever it sits in the request sequence. -/
theorem runBuildRequests_failfast (w : ImageBuilder.BuildWorld) (name : String) :
    ∀ (l1 : List ImageBuilder.BuildRequest) (failed_images : Finset String)
      (r : ImageBuilder.BuildRequest) (l2 : List ImageBuilder.BuildRequest),
      name ∈ failed_images → get_image_name r.repo_name r.spec_dict = name →
      ((ImageBuilder.runBuildRequests failed_images w (l1 ++ r :: l2)).2)[l1.length]?
        = some (.error ("Failed to build image " ++ name ++ " before. Skipping the build."),
            []) := by
  intro l1
  induction l1 with
  | nil =>
    intro failed_images r l2 hmem hname
    have hr : get_image_name r.repo_name r.spec_dict ∈ failed_images := by
      rw [hname]; exact hmem
    rw [List.nil_append]
    unfold ImageBuilder.runBuildRequests
    rw [build_failfast failed_images w r.repo_name r.spec_dict r.force_rebuild hr]
    simp [hname]
  | cons a l1 ih =>
    intro failed_images r l2 hmem hname
    rw [List.cons_append]
    unfold ImageBuilder.runBuildRequests
    have hmono := build_failed_monotone failed_images w a.repo_name a.spec_dict a.force_rebuild
      name hmem
    have := ih _ r l2 hmono hname
    simpa using this

/-- Claim C7: once an image identity is in the sticky failed set, the very
next build request for it fails fast inside the lock — returning the
recorded-failure error, attempting neither cache check, registry pull nor
rebuild, and leaving the state unchanged — and the identity remains in the
failed set across every later request sequence, each of whose requests for
that identity is answered the same way. -/
theorem claim_C7 (failed_images : Finset String) (w : ImageBuilder.BuildWorld)
    (repo_name : String) (spec_dict : SpecDict) (force_rebuild : Bool)
    (h : get_image_name repo_name spec_dict ∈ failed_images) :
    ImageBuilder.build_docker_image_from_specs failed_images w repo_name spec_dict force_rebuild
      = { failed := failed_images
          result := .error ("Failed to build image " ++ get_image_name repo_name spec_dict
            ++ " before. Skipping the build.")
          actions := []
          spec_after := spec_dict }
    ∧ (∀ reqs : List ImageBuilder.BuildRequest,
        get_image_name repo_name spec_dict ∈ (ImageBuilder.runBuildRequests failed_images w
          reqs).1)
    ∧ (∀ (l1 : List ImageBuilder.BuildRequest) (r : ImageBuilder.BuildRequest)
        (l2 : List ImageBuilder.BuildRequest),
        get_image_name r.repo_name r.spec_dict = get_image_name repo_name spec_dict →
        ((ImageBuilder.runBuildRequests failed_images w (l1 ++ r :: l2)).2)[l1.length]?
          = some (.error ("Failed to build image " ++ get_image_name repo_name spec_dict
              ++ " before. Skipping the build."), [])) :=
  ⟨build_failfast failed_images w repo_name spec_dict force_rebuild h,
   fun reqs => runBuildRequests_monotone w reqs failed_images _ h,
   fun l1 r l2 hname => runBuildRequests_failfast w _ l1 failed_images r l2 h hname⟩

/-- Witness for claim C7: a singleton failed set containing the identity of
`exSpec`; the immediately following request for the same identity fails
fast with no attempted step. -/
theorem claim_C7_witness :
    get_image_name "org/repo" exSpec ∈ ({get_image_name "org/repo" exSpec} : Finset String)
    ∧ ImageBuilder.build_docker_image_from_specs {get_image_name "org/repo" exSpec} freshWorld
        "org/repo" exSpec false
      = { failed := {get_image_name "org/repo" exSpec}
          result := .error ("Failed to build image " ++ get_image_name "org/repo" exSpec
            ++ " before. Skipping the build.")
          actions := []
          spec_after := exSpec }
    ∧ ((ImageBuilder.runBuildRequests {get_image_name "org/repo" exSpec} freshWorld
          [{ repo_name := "org/repo", spec_dict := exSpec }]).2)[(0 : Nat)]?
        = some (.error ("Failed to build image " ++ get_image_name "org/repo" exSpec
            ++ " before. Skipping the build."), []) :=
  ⟨Finset.mem_singleton_self _,
   (claim_C7 {get_image_name "org/repo" exSpec} freshWorld "org/repo" exSpec false
     (Finset.mem_singleton_self _)).1,
   (claim_C7 {get_image_name "org/repo" exSpec} freshWorld "org/repo" exSpec false
     (Finset.mem_singleton_self _)).2.2 [] { repo_name := "org/repo", spec_dict := exSpec } []
     rfl⟩

/-! ## Claim C8 -/

/-- Lookup after folding `m[x] = f x` over a list. -/
theorem dlookup_foldf {α : Type} (f : String → α) (l : List String) (y : String) :
    ∀ m0 : List (String × α),
      dlookup (l.foldl (fun m x => dinsert m x (f x)) m0) y
        = if y ∈ l then some (f y) else dlookup m0 y := by
  induction l with
  | nil => intro m0; simp
  | cons x xs ih =>
    intro m0
    rw [List.foldl_cons, ih]
    by_cases hxs : y ∈ xs
    · rw [if_pos hxs, if_pos (List.mem_cons_of_mem x hxs)]
    · rw [if_neg hxs]
      by_cases hyx : y = x
      · subst hyx
        rw [if_pos (List.mem_cons_self y xs), dlookup_dinsert_self]
      · rw [dlookup_dinsert_other _ _ _ _ hyx,
          if_neg (fun h => (List.mem_cons.mp h).elim hyx hxs)]

theorem all_congr_mem {α : Type} (l : List α) (p q : α → Bool)
    (h : ∀ x ∈ l, p x = q x) : l.all p = l.all q := by
  induction l with
  | nil => rfl
  | cons x xs ih =>
    simp only [List.all_cons]
    rw [h x (List.mem_cons_self x xs), ih (fun y hy => h y (List.mem_cons_of_mem x hy))]

/-- The all-error check `batch_submit` performs on the freshly drained
results dict agrees with checking `runOne` directly. -/
theorem batch_check_eq (runOne : String → Evaluate.InstResult) (chunk : List String)
    (results : List (String × Evaluate.InstResult)) :
    (chunk.all (fun iid =>
      match dlookup (chunk.foldl (fun m iid => dinsert m iid (runOne iid)) results) iid with
      | some r => r.isErr
      | none => false))
      = chunk.all (fun iid => (runOne iid).isErr) := by
  apply all_congr_mem
  intro iid hm
  rw [dlookup_foldf runOne chunk iid results, if_pos hm]

/-- The chunks `batch_submit` submits form a prefix of the chunk list. -/
theorem batch_submit_front (runOne : String → Evaluate.InstResult) :
    ∀ (chunks : List (List String)) (results : List (String × Evaluate.InstResult)),
      ∃ m, (Evaluate.batch_submit runOne chunks results).1 = chunks.take m := by
  intro chunks
  induction chunks with
  | nil => intro results; exact ⟨0, rfl⟩
  | cons chunk rest ih =>
    intro results
    unfold Evaluate.batch_submit
    by_cases hall : (chunk.all (fun iid =>
        match dlookup (chunk.foldl (fun m iid => dinsert m iid (runOne iid)) results) iid with
        | some r => r.isErr
        | none => false)) = true
    · rw [if_pos hall]
      exact ⟨1, rfl⟩
    · rw [if_neg hall]
      obtain ⟨m, hm⟩ := ih (chunk.foldl (fun m iid => dinsert m iid (runOne iid)) results)
      exact ⟨m + 1, by simp [hm]⟩

/-- No chunk that drained into all-errors is followed by another submitted
chunk: every submitted chunk except the last drains with at least one
non-error result. -/
theorem batch_submit_stops (runOne : String → Evaluate.InstResult) :
    ∀ (chunks : List (List String)) (results : List (String × Evaluate.InstResult)),
      ∀ c ∈ (Evaluate.batch_submit runOne chunks results).1.dropLast,
        c.all (fun iid => (runOne iid).isErr) = false := by
  intro chunks
  induction chunks with
  | nil => intro results c hc; simp [Evaluate.batch_submit] at hc
  | cons chunk rest ih =>
    intro results c hc
    unfold Evaluate.batch_submit at hc
    by_cases hall : (chunk.all (fun iid =>
        match dlookup (chunk.foldl (fun m iid => dinsert m iid (runOne iid)) results) iid with
        | some r => r.isErr
        | none => false)) = true
    · rw [if_pos hall] at hc
      simp at hc
    · rw [if_neg hall] at hc
      dsimp only at hc
      rw [batch_check_eq] at hall
      have hall2 : c = chunk → c.all (fun iid => (runOne iid).isErr) = false := by
        intro hceq
        subst hceq
        exact Bool.not_eq_true _ |>.mp hall
      rcases hsub : (Evaluate.batch_submit runOne rest
          (chunk.foldl (fun m iid => dinsert m iid (runOne iid)) results)).1 with _ | ⟨s, ss⟩
      · rw [hsub] at hc
        simp at hc
      · rw [hsub] at hc
        rw [List.dropLast_cons₂] at hc
        rcases List.mem_cons.mp hc with rfl | hc2
        · exact hall2 rfl
        · have := ih (chunk.foldl (fun m iid => dinsert m iid (runOne iid)) results) c
          rw [hsub] at this
          exact this hc2

/-- Claim C8: in batch mode the scheduler cuts the instance list into
chunks of `max_concurrency` (each chunk at most that long, the chunks
concatenating back to the instance list in order), the submitted chunks
form a prefix of that chunking, and no chunk whose instances all drained
into error results is ever followed by a further submitted chunk. -/
theorem claim_C8 (runOne : String → Evaluate.InstResult) (k : Nat) (ids : List String)
    (hk : 0 < k) :
    (∃ m, (Evaluate.evaluate_batch runOne k ids).1 = (chunksOf k ids).take m)
    ∧ (∀ c ∈ (Evaluate.evaluate_batch runOne k ids).1.dropLast,
        c.all (fun iid => (runOne iid).isErr) = false)
    ∧ (∀ c ∈ chunksOf k ids, c.length ≤ k)
    ∧ (chunksOf k ids).flatten = ids :=
  ⟨batch_submit_front runOne (chunksOf k ids) [],
   batch_submit_stops runOne (chunksOf k ids) [],
   chunksOf_length_le k ids,
   chunksOf_flatten k ids hk⟩

/-- The worker outcome of the C8 scenario: the first two instances error,
the rest succeed. -/
def runOneScenario : String → Evaluate.InstResult :=
  fun iid => if ["i1", "i2"].contains iid then .err "boom" else .ok []

/-- Witness for claim C8 at the scenario of the specification: four
instances in chunks of two whose first chunk fully errors — the second
chunk is never submitted. -/
theorem claim_C8_witness :
    (0 : Nat) < 2
    ∧ ((∃ m, (Evaluate.evaluate_batch runOneScenario 2 ["i1", "i2", "i3", "i4"]).1
          = (chunksOf 2 ["i1", "i2", "i3", "i4"]).take m)
      ∧ (∀ c ∈ (Evaluate.evaluate_batch runOneScenario 2 ["i1", "i2", "i3", "i4"]).1.dropLast,
          c.all (fun iid => (runOneScenario iid).isErr) = false)
      ∧ (∀ c ∈ chunksOf 2 ["i1", "i2", "i3", "i4"], c.length ≤ 2)
      ∧ (chunksOf 2 ["i1", "i2", "i3", "i4"]).flatten = ["i1", "i2", "i3", "i4"])
    ∧ Evaluate.evaluate_batch runOneScenario 2 ["i1", "i2", "i3", "i4"]
        = ([["i1", "i2"]], [("i1", .err "boom"), ("i2", .err "boom")])
    ∧ chunksOf 2 ["i1", "i2", "i3", "i4"] = [["i1", "i2"], ["i3", "i4"]] :=
  ⟨by decide,
   claim_C8 runOneScenario 2 ["i1", "i2", "i3", "i4"] (by decide),
   by decide, by decide⟩
